import Mathlib

/-!
# Verification of the Chat-Memory-Graph memory consolidation pipeline

Shallow embedding of the memory consolidation pipeline of the
Chat-Memory-Graph backend (`src/backend/src/app/memory/` together with the
data model of `src/backend/src/app/models/database_models.py`).

Modelling conventions:
* machine timestamps (`datetime.now()`) are modelled as a `Nat` parameter
  `now` threaded into each operation;
* row ids (`uuid4` in the source) are modelled as `Nat`s drawn from a
  fresh-id counter `nextId` carried by the database state — all that the
  pipeline relies on is that new ids are distinct from existing ones;
* Python `dict`s are modelled as insertion-ordered association lists
  (`List (String × α)`) where inserting an existing key overwrites the
  value in place, matching CPython semantics;
* JSON numbers (`importance`, `confidence`) are modelled as `Option ℚ`;
  `none` stands for `null` / a missing key / a non-numeric value, which
  the source treats identically through its `isinstance(x, (int, float))`
  guards;
* the SQLAlchemy session is modelled as a transaction state carrying the
  committed (`durable`) database and the session's current view
  (`pending`): `db.add`/`db.flush` mutate `pending`, `db.commit` promotes
  `pending` to `durable`, `db.rollback` resets `pending` to `durable`.
  The backing store is SQLite, whose string comparisons (used by
  `.in_(...)` filters) are case-sensitive (BINARY collation); queries in
  the embedding therefore compare strings exactly.
-/

set_option autoImplicit false

namespace ChatMemoryGraph

/-- Python-dict insert on an association list: overwrite an existing key in
place, else append. -/
def dictInsert {α : Type} (l : List (String × α)) (k : String) (v : α) :
    List (String × α) :=
  match l with
  | [] => [(k, v)]
  | (k', v') :: rest =>
    if k' = k then (k, v) :: rest else (k', v') :: dictInsert rest k v

/-- Python-dict lookup on an association list. -/
def dictFind? {α : Type} (l : List (String × α)) (k : String) : Option α :=
  match l with
  | [] => none
  | (k', v) :: rest => if k' = k then some v else dictFind? rest k

/-- Python `str.lower()` as used by the source's normalisation helpers,
rendered character-wise (ASCII case folding via `Char.toLower`, applied to
every character) so that concrete runs reduce inside the kernel. -/
def strLower (s : String) : String := ⟨s.data.map Char.toLower⟩

/-- Python `str.strip()`: drop leading and trailing whitespace, rendered
character-wise for the same reason. -/
def strTrim (s : String) : String :=
  ⟨((s.data.dropWhile Char.isWhitespace).reverse.dropWhile
      Char.isWhitespace).reverse⟩

/-- A chat message (`MessageWithTimestamp` in
`src/app/conversation/models.py`): role, content and timestamp. -/
structure Message where
  role : String
  content : String
  timestamp : Nat
  deriving Repr, DecidableEq

/-- A conversation (`Conversation` in `src/app/conversation/models.py`):
identifier plus its ordered message list. -/
structure Conversation where
  id : String
  messages : List Message
  deriving Repr, DecidableEq

/-- Index of the last element of `ms` satisfying `p`, or `none`.  Embeds the
source's backward `for idx in range(len(messages) - 1, -1, -1)` scans in
`get_latest_user_assistant_pair` (`src/app/memory/chunking.py`). -/
def lastIdx {α : Type} (p : α → Bool) : List α → Option Nat
  | [] => none
  | m :: rest =>
    match lastIdx p rest with
    | some j => some (j + 1)
    | none => if p m then some 0 else none

/-- Placeholder message used to totalise list indexing; the source only
indexes at positions returned by its own backward scans, which are always
in range. -/
def defaultMsg : Message := ⟨"", "", 0⟩

/-- `get_latest_user_assistant_pair` (`src/app/memory/chunking.py`, lines
12–48): find the last assistant message, then the nearest user message
strictly before it; `none` when fewer than two messages or either scan
fails. -/
def get_latest_user_assistant_pair (conversation : Conversation) :
    Option (Message × Message) :=
  let messages := conversation.messages
  if messages.length < 2 then none
  else
    match lastIdx (fun m => m.role == "assistant") messages with
    | none => none
    | some last_assistant_idx =>
      match lastIdx (fun m => m.role == "user")
          (messages.take last_assistant_idx) with
      | none => none
      | some last_user_idx =>
        some (messages.getD last_user_idx defaultMsg,
              messages.getD last_assistant_idx defaultMsg)

/-- Entity row (`EntityModel` in `database_models.py`): unique constraint on
`(canonical_name, entity_type)` at the store level. -/
structure Entity where
  id : Nat
  canonical_name : String
  entity_type : Option String
  aliases : List String
  first_seen_at : Nat
  last_seen_at : Nat
  deriving Repr, DecidableEq

/-- Triple row (`TripleModel` in `database_models.py`).  `is_state` is a
nullable Boolean column (`Column(Boolean, default=False)`); it is modelled
as `Option Bool` so that "the code never stores null here" is provable
rather than assumed. -/
structure Triple where
  id : Nat
  subject_entity_id : Nat
  object_entity_id : Option Nat
  relation_type : String
  relation_text : Option String
  importance : Option ℚ
  is_state : Option Bool
  confidence : Option ℚ
  first_seen_at : Nat
  last_seen_at : Nat
  deriving Repr, DecidableEq

/-- Session-summary row (`SessionSummaryModel` in `database_models.py`),
one per conversation. -/
structure SessionSummary where
  id : Nat
  conversation_id : String
  start_time : Nat
  end_time : Nat
  summary_text : Option String
  keywords : List String
  themes : List String
  created_at : Nat
  updated_at : Nat
  deriving Repr, DecidableEq

/-- Memory-chunk row (`MemoryChunkModel` in `database_models.py`). -/
structure MemoryChunk where
  id : Nat
  conversation_id : String
  session_summary_id : Nat
  text : String
  timestamp : Nat
  deriving Repr, DecidableEq

/-- `TripleSessionLinkModel`: join row between a triple and a session
summary, unique on the pair. -/
structure TripleSessionLink where
  id : Nat
  triple_id : Nat
  session_summary_id : Nat
  deriving Repr, DecidableEq

/-- `TripleChunkLinkModel`: join row between a triple and a memory chunk,
unique on the pair. -/
structure TripleChunkLink where
  id : Nat
  triple_id : Nat
  chunk_id : Nat
  deriving Repr, DecidableEq

/-- The database state: the rows of the six memory tables plus the fresh-id
counter. -/
structure DB where
  entities : List Entity
  triples : List Triple
  summaries : List SessionSummary
  chunks : List MemoryChunk
  sessionLinks : List TripleSessionLink
  chunkLinks : List TripleChunkLink
  nextId : Nat
  deriving Repr, DecidableEq

/-- The empty database. -/
def DB.empty : DB := ⟨[], [], [], [], [], [], 0⟩

/-- Replace the entity row with id `e.id` by `e` (ORM in-place mutation of a
loaded row, visible after `flush`). -/
def DB.updateEntity (db : DB) (e : Entity) : DB :=
  { db with entities := db.entities.map (fun x => if x.id = e.id then e else x) }

/-- Replace the triple row with id `t.id` by `t`. -/
def DB.updateTriple (db : DB) (t : Triple) : DB :=
  { db with triples := db.triples.map (fun x => if x.id = t.id then t else x) }

/-- Replace the session-summary row with id `s.id` by `s`. -/
def DB.updateSummary (db : DB) (s : SessionSummary) : DB :=
  { db with summaries := db.summaries.map (fun x => if x.id = s.id then s else x) }

/-- An entity mention from the extraction
(`extraction["entities"][i]` consumed by `upsert_entities`);
`canonical_name`/`entity_type` model `dict.get` results (`none` = missing
or JSON null), `aliases` models `e.get("aliases") or []`. -/
structure EntityData where
  canonical_name : Option String
  entity_type : Option String
  aliases : List String
  deriving Repr, DecidableEq

/-- A candidate triple from the extraction
(`extraction["triples"][i]` consumed by `upsert_triples_and_links`).
`subject`, `object`, `relation_type` model `t.get(k) or ""` (missing/null
collapses to `""` exactly as in the source). -/
structure TripleData where
  subject : String
  subject_type : Option String
  object : String
  object_type : Option String
  relation_type : String
  relation_text : Option String
  importance : Option ℚ
  is_state : Option Bool
  confidence : Option ℚ
  deriving Repr, DecidableEq

/-- The extraction's `session_summary` object, consumed by
`update_session_summary_from_extraction`. -/
structure SummaryData where
  summary_text : Option String
  keywords : List String
  themes : List String
  deriving Repr, DecidableEq

/-- A full extraction result, as normalised by
`MemoryLlmClient.extract_memory` (`src/app/llm/memory_client.py`): the
three top-level keys are always present and well-typed after
`setdefault` / type normalisation. -/
structure Extraction where
  session_summary : SummaryData
  entities : List EntityData
  triples : List TripleData
  deriving Repr, DecidableEq

/-- `make_entity_key` (`src/app/memory/entities.py`, lines 14–20):
lowercased, trimmed `"name|type"`. -/
def make_entity_key (name : String) (entity_type : Option String) : String :=
  let name_norm := strLower (strTrim name)
  let type_norm := strLower (strTrim (entity_type.getD ""))
  name_norm ++ "|" ++ type_norm

/-- Python `list(set(l))`: the same element set with duplicates collapsed
(the embedding fixes first-occurrence order; the source's set order is
unspecified, and no claim depends on it). -/
def pySetList (l : List String) : List String :=
  l.foldl (fun acc a => if a ∈ acc then acc else acc ++ [a]) []

/-- The alias merge of `upsert_entities` (`entities.py`, lines 80–84):
start from `set(ent.aliases)` and add each given alias that is non-empty
and not already present. -/
def unionAliases (old given : List String) : List String :=
  given.foldl
    (fun acc a => if a ≠ "" ∧ a ∉ acc then acc ++ [a] else acc)
    (pySetList old)

/-- The store-level signal for a violated unique constraint
(SQLAlchemy `IntegrityError` raised at `db.flush()`). -/
inductive StoreErr where
  | constraintConflict
  deriving Repr, DecidableEq

/-- `upsert_entities` (`src/app/memory/entities.py`, lines 23–106).

`concurrent` models entity rows committed by a concurrent writer after
this transaction's batch query ran — the query reads only `db.entities`,
but the unique constraint on `(canonical_name, entity_type)` checked at
`flush` sees `db.entities ++ concurrent`.  The source has no exception
handling, so a constraint violation propagates out (`Except.error`).

Returns the updated database together with the `canonicalKey → Entity`
cache. -/
def upsert_entities (db : DB) (concurrent : List Entity)
    (entities_data : List EntityData) (now : Nat) :
    Except StoreErr (DB × List (String × Entity)) :=
  -- Collect the canonical keys we actually need (later mentions overwrite).
  let keys_needed : List (String × (String × Option String)) :=
    entities_data.foldl
      (fun acc e =>
        let name := strTrim (e.canonical_name.getD "")
        if name = "" then acc
        else dictInsert acc (make_entity_key name e.entity_type)
               (name, e.entity_type))
      []
  if keys_needed.isEmpty then Except.ok (db, [])
  else
    -- Query existing entities by canonical_name (exact-match SQL equality).
    let names := keys_needed.map (fun kv => kv.2.1)
    let existing_entities := db.entities.filter
      (fun ent => names.contains ent.canonical_name)
    let cache0 : List (String × Entity) := existing_entities.foldl
      (fun c ent =>
        dictInsert c (make_entity_key ent.canonical_name ent.entity_type) ent)
      []
    entities_data.foldlM
      (fun (st : DB × List (String × Entity)) e =>
        let db := st.1
        let cache := st.2
        let name := strTrim (e.canonical_name.getD "")
        if name = "" then Except.ok (db, cache)
        else
          let entity_type := e.entity_type
          let aliases := e.aliases
          let key := make_entity_key name entity_type
          match dictFind? cache key with
          | some ent =>
            -- Update last_seen_at & optional aliases.
            let ent' := { ent with
              last_seen_at := now
              aliases := if aliases.isEmpty then ent.aliases
                         else unionAliases ent.aliases aliases }
            Except.ok (db.updateEntity ent', dictInsert cache key ent')
          | none =>
            -- Insert; flush checks the (canonical_name, entity_type)
            -- unique constraint against visible and concurrent rows.
            if (db.entities ++ concurrent).any
                (fun x => x.canonical_name = name ∧ x.entity_type = entity_type)
            then Except.error StoreErr.constraintConflict
            else
              let ent : Entity :=
                { id := db.nextId
                  canonical_name := name
                  entity_type := entity_type
                  aliases := aliases
                  first_seen_at := now
                  last_seen_at := now }
              Except.ok
                ({ db with
                    entities := db.entities ++ [ent]
                    nextId := db.nextId + 1 },
                 dictInsert cache key ent))
      (db, cache0)

/-- `get_or_create_session_summary` (`src/app/memory/session_summary.py`,
lines 12–53): return the conversation's summary row, widening its
`end_time` to the latest message and bumping `updated_at`, or create a
fresh one. -/
def get_or_create_session_summary (db : DB) (conversation : Conversation)
    (now : Nat) : DB × SessionSummary :=
  match db.summaries.find? (fun s => s.conversation_id == conversation.id) with
  | some existing =>
    let existing :=
      match conversation.messages.getLast? with
      | some lastMsg => { existing with end_time := lastMsg.timestamp }
      | none => existing
    let existing := { existing with updated_at := now }
    (db.updateSummary existing, existing)
  | none =>
    let times :=
      match conversation.messages, conversation.messages.getLast? with
      | first :: _, some lastMsg => (first.timestamp, lastMsg.timestamp)
      | _, _ => (now, now)
    let summary : SessionSummary :=
      { id := db.nextId
        conversation_id := conversation.id
        start_time := times.1
        end_time := times.2
        summary_text := none
        keywords := []
        themes := []
        created_at := now
        updated_at := now }
    ({ db with summaries := db.summaries ++ [summary], nextId := db.nextId + 1 },
     summary)

/-- `create_memory_chunk` (`src/app/memory/chunking.py`, lines 51–77):
materialise the evidence pair as a chunk row whose text is the literal
two-line concatenation. -/
def create_memory_chunk (db : DB) (conversation : Conversation)
    (session_summary : SessionSummary) (pair : Message × Message) :
    DB × MemoryChunk :=
  let user_msg := pair.1
  let assistant_msg := pair.2
  let chunk_text :=
    "user: " ++ user_msg.content ++ "\nassistant: " ++ assistant_msg.content
  let chunk : MemoryChunk :=
    { id := db.nextId
      conversation_id := conversation.id
      session_summary_id := session_summary.id
      text := chunk_text
      timestamp := assistant_msg.timestamp }
  ({ db with chunks := db.chunks ++ [chunk], nextId := db.nextId + 1 }, chunk)

/-- `update_session_summary_from_extraction`
(`src/app/memory/session_summary.py`, lines 56–91): merge the extraction's
summary fields into the summary row. -/
def update_session_summary_from_extraction (session_summary : SessionSummary)
    (summary_data : SummaryData) (conversation : Conversation) (now : Nat) :
    SessionSummary :=
  let summary_text := summary_data.summary_text
  let keywords := summary_data.keywords
  let themes := summary_data.themes
  let s := session_summary
  let s :=
    match summary_text with
    | some txt => if txt = "" then s else { s with summary_text := some txt }
    | none => s
  let s :=
    if keywords.isEmpty then s
    else { s with keywords :=
            (keywords.foldl
              (fun acc k => if k ≠ "" ∧ k ∉ acc then acc ++ [k] else acc)
              (pySetList s.keywords)) }
  let s :=
    if themes.isEmpty then s
    else { s with themes :=
            (themes.foldl
              (fun acc t => if t ≠ "" ∧ t ∉ acc then acc ++ [t] else acc)
              (pySetList s.themes)) }
  let s :=
    match conversation.messages, conversation.messages.getLast? with
    | first :: _, some lastMsg =>
      { s with start_time := first.timestamp, end_time := lastMsg.timestamp }
    | _, _ => s
  { s with updated_at := now }

/-- `make_triple_key` (`src/app/memory/triples.py`, lines 21–32):
`subject_id | lower(relation_type) | object_id_or_empty`. -/
def make_triple_key (subject_id : Nat) (relation_type : String)
    (object_id : Option Nat) : String :=
  let rel_norm := strLower (strTrim relation_type)
  let obj_part := match object_id with
    | some o => toString o
    | none => ""
  toString subject_id ++ "|" ++ rel_norm ++ "|" ++ obj_part

/-- `ensure_triple_session_link` (`triples.py`, lines 35–57): query for the
pair, insert only when absent. -/
def ensure_triple_session_link (db : DB) (triple_id session_summary_id : Nat) :
    DB :=
  match db.sessionLinks.find?
      (fun l => l.triple_id == triple_id
        && l.session_summary_id == session_summary_id) with
  | some _ => db
  | none =>
    { db with
        sessionLinks := db.sessionLinks ++
          [{ id := db.nextId
             triple_id := triple_id
             session_summary_id := session_summary_id }]
        nextId := db.nextId + 1 }

/-- `ensure_triple_chunk_link` (`triples.py`, lines 59–80): query for the
pair, insert only when absent. -/
def ensure_triple_chunk_link (db : DB) (triple_id chunk_id : Nat) : DB :=
  match db.chunkLinks.find?
      (fun l => l.triple_id == triple_id && l.chunk_id == chunk_id) with
  | some _ => db
  | none =>
    { db with
        chunkLinks := db.chunkLinks ++
          [{ id := db.nextId, triple_id := triple_id, chunk_id := chunk_id }]
        nextId := db.nextId + 1 }

/-- The matched-triple update of `upsert_triples_and_links` (`triples.py`,
lines 170–181): bump `last_seen_at`; adopt a numeric importance/confidence
only when the stored value is null or the new one strictly greater;
overwrite `is_state` when the extraction supplies a non-null value. -/
def updateMatchedTriple (triple : Triple) (importance : Option ℚ)
    (is_state : Option Bool) (confidence : Option ℚ) (now : Nat) : Triple :=
  -- The source mutates the matched row field by field; the four updates
  -- touch disjoint fields, each reading only the field it writes, so they
  -- are rendered as one record update.
  { triple with
      last_seen_at := now
      importance :=
        match importance, triple.importance with
        | some imp, none => some imp
        | some imp, some old => if imp > old then some imp else some old
        | none, old => old
      confidence :=
        match confidence, triple.confidence with
        | some conf, none => some conf
        | some conf, some old => if conf > old then some conf else some old
        | none, old => old
      is_state :=
        match is_state with
        | some b => some b
        | none => triple.is_state }

/-- The freshly-inserted triple of `upsert_triples_and_links` (`triples.py`,
lines 183–193): `is_state` is coerced to a Boolean, with `False` when the
extraction gave null/missing. -/
def newTriple (id subj_id : Nat) (obj_id : Option Nat)
    (relation_type : String) (relation_text : Option String)
    (importance : Option ℚ) (is_state : Option Bool) (confidence : Option ℚ)
    (now : Nat) : Triple :=
  { id := id
    subject_entity_id := subj_id
    object_entity_id := obj_id
    relation_type := relation_type
    relation_text := relation_text
    importance := importance
    is_state := some (is_state.getD false)
    confidence := confidence
    first_seen_at := now
    last_seen_at := now }

/-- The `entity_id_by_key` map of `upsert_triples_and_links`
(`triples.py`, lines 100–103): canonical entity key → entity id, built
from the entity cache. -/
def entityIdByKey (entity_cache : List (String × Entity)) :
    List (String × Nat) :=
  entity_cache.foldl
    (fun acc kv =>
      dictInsert acc
        (make_entity_key kv.2.canonical_name kv.2.entity_type) kv.2.id)
    []

/-- Object resolution of `upsert_triples_and_links` (`triples.py`, lines
159–165): an empty trimmed object name, or an object that is not a
declared entity of the batch, yields `none`. -/
def resolveObjId (entity_id_by_key : List (String × Nat)) (t : TripleData) :
    Option Nat :=
  if (strTrim t.object) = "" then none
  else dictFind? entity_id_by_key (make_entity_key (strTrim t.object) t.object_type)

/-- The dedup key of a stored triple row, as computed for
`existing_by_key` (`triples.py`, lines 125–132). -/
def tripleKeyOf (tr : Triple) : String :=
  make_triple_key tr.subject_entity_id tr.relation_type tr.object_entity_id

/-- The per-candidate body of the loop in `upsert_triples_and_links`
(`triples.py`, lines 137–201), threading the database and the
`existing_by_key` dict. -/
def upsertOneTriple (entity_id_by_key : List (String × Nat))
    (session_summary_id chunk_id : Nat) (now : Nat)
    (st : DB × List (String × Triple)) (t : TripleData) :
    DB × List (String × Triple) :=
  let db := st.1
  let existing_by_key := st.2
  let subj_name := (strTrim t.subject)
  let subj_type := t.subject_type
  let relation_type := (strTrim t.relation_type)
  if subj_name = "" ∨ relation_type = "" then st
  else
    -- Resolve subject entity.
    match dictFind? entity_id_by_key (make_entity_key subj_name subj_type) with
    | none => st  -- subject wasn't in the entities list: skip
    | some subj_id =>
      -- Resolve object entity if present; unresolved objects stay null.
      let obj_id : Option Nat := resolveObjId entity_id_by_key t
      let triple_key := make_triple_key subj_id relation_type obj_id
      match dictFind? existing_by_key triple_key with
      | some triple =>
        let triple' :=
          updateMatchedTriple triple t.importance t.is_state t.confidence now
        let db := db.updateTriple triple'
        let db := ensure_triple_session_link db triple'.id session_summary_id
        let db := ensure_triple_chunk_link db triple'.id chunk_id
        (db, dictInsert existing_by_key triple_key triple')
      | none =>
        let triple := newTriple db.nextId subj_id obj_id relation_type
          t.relation_text t.importance t.is_state t.confidence now
        let db := { db with
          triples := db.triples ++ [triple], nextId := db.nextId + 1 }
        let db := ensure_triple_session_link db triple.id session_summary_id
        let db := ensure_triple_chunk_link db triple.id chunk_id
        (db, dictInsert existing_by_key triple_key triple)

/-- `upsert_triples_and_links` (`src/app/memory/triples.py`, lines
83–208): resolve, dedup and upsert candidate triples, linking each
resolved triple to the session summary and the chunk. -/
def upsert_triples_and_links (db : DB) (triples_data : List TripleData)
    (entity_cache : List (String × Entity))
    (session_summary_id chunk_id : Nat) (now : Nat) : DB :=
  if triples_data.isEmpty then db
  else
    -- Map canonical entity key -> entity id.
    let entity_id_by_key := entityIdByKey entity_cache
    -- Preload existing triples for the batch's resolved subjects.
    let subject_ids : List Nat :=
      triples_data.foldl
        (fun acc t =>
          let subj_name := (strTrim t.subject)
          if subj_name = "" then acc
          else
            match dictFind? entity_id_by_key
                (make_entity_key subj_name t.subject_type) with
            | some ent_id => if ent_id ∈ acc then acc else acc ++ [ent_id]
            | none => acc)
        []
    let existing_triples := db.triples.filter
      (fun tr => subject_ids.contains tr.subject_entity_id)
    let existing_by_key : List (String × Triple) :=
      existing_triples.foldl
        (fun acc tr => dictInsert acc (tripleKeyOf tr) tr) []
    (triples_data.foldl
      (upsertOneTriple entity_id_by_key session_summary_id chunk_id now)
      (db, existing_by_key)).1

/-- An application-level error from the memory LLM client
(`AppError` in the source): raised for provider failures and for
malformed extractions alike. -/
inductive AppError where
  | providerError (message : String)
  | malformedExtraction (message : String)
  deriving Repr, DecidableEq

/-- The transactional session state: `durable` is the committed database,
`pending` the session's current view including uncommitted writes. -/
structure TxState where
  durable : DB
  pending : DB
  deriving Repr, DecidableEq

/-- `db.commit()`: promote the pending view to the committed state. -/
def TxState.commit (s : TxState) : TxState := ⟨s.pending, s.pending⟩

/-- `db.rollback()`: discard all uncommitted writes. -/
def TxState.rollback (s : TxState) : TxState := ⟨s.durable, s.durable⟩

/-- Steps 1–2 of the pipeline body (`pipeline.py`, lines 40–43): load or
create the session summary, then create the evidence chunk. -/
def summaryAndChunk (db : DB) (conversation : Conversation)
    (pair : Message × Message) (now : Nat) :
    DB × SessionSummary × MemoryChunk :=
  let r1 := get_or_create_session_summary db conversation now
  let r2 := create_memory_chunk r1.1 conversation r1.2 pair
  (r2.1, r1.2, r2.2)

/-- `update_memory_after_turn` (`src/app/memory/pipeline.py`, lines
19–101).  The extraction call is external; its outcome enters as
`extraction : Except AppError Extraction`.  `concurrent` models entity
rows committed by a concurrent writer between this turn's entity query
and its flush (the store-error path).  All failures inside the `try`
body are caught (`except AppError` / `except Exception`), logged and
answered with `db.rollback()`; nothing is raised to the caller, which the
embedding reflects by returning a `TxState` totally. -/
def update_memory_after_turn (s : TxState) (conversation : Conversation)
    (extraction : Except AppError Extraction) (concurrent : List Entity)
    (now : Nat) : TxState :=
  match get_latest_user_assistant_pair conversation with
  | none => s
  | some pair =>
    -- 1) Session summary  2) Chunk
    let r12 := summaryAndChunk s.pending conversation pair now
    let db2 := r12.1
    let session_summary := r12.2.1
    let chunk := r12.2.2
    -- 3) Call memory LLM
    match extraction with
    | Except.error _ => TxState.rollback { s with pending := db2 }
    | Except.ok ex =>
      -- 4) Entities
      match upsert_entities db2 concurrent ex.entities now with
      | Except.error _ => TxState.rollback { s with pending := db2 }
      | Except.ok (db3, entity_cache) =>
        -- 5) Triples + links
        let db4 := upsert_triples_and_links db3 ex.triples entity_cache
          session_summary.id chunk.id now
        -- 6) Update session summary content
        let summary' := update_session_summary_from_extraction
          session_summary ex.session_summary conversation now
        let db5 := db4.updateSummary summary'
        -- Commit everything from this pipeline
        TxState.commit { s with pending := db5 }

/-! ## Dictionary lemmas -/

theorem dictFind?_insert_self {α : Type} (l : List (String × α)) (k : String)
    (v : α) : dictFind? (dictInsert l k v) k = some v := by
  induction l with
  | nil => simp [dictInsert, dictFind?]
  | cons kv rest ih =>
    obtain ⟨k0, v0⟩ := kv
    by_cases h0 : k0 = k
    · simp [dictInsert, dictFind?, h0]
    · simp [dictInsert, dictFind?, h0, ih]

theorem dictFind?_insert_ne {α : Type} (l : List (String × α)) (k k' : String)
    (v : α) (h : k' ≠ k) :
    dictFind? (dictInsert l k v) k' = dictFind? l k' := by
  induction l with
  | nil => simp [dictInsert, dictFind?, h, Ne.symm h]
  | cons kv rest ih =>
    obtain ⟨k0, v0⟩ := kv
    by_cases h0 : k0 = k
    · subst h0
      simp [dictInsert, dictFind?, h, Ne.symm h]
    · by_cases h1 : k0 = k'
      · subst h1
        simp [dictInsert, dictFind?, h, h0]
      · simp [dictInsert, dictFind?, h0, h1, ih]

theorem getLast?_of_all_eq {α : Type} (l : List α) (T : α) (hmem : T ∈ l)
    (hall : ∀ x ∈ l, x = T) : l.getLast? = some T := by
  induction l with
  | nil => cases hmem
  | cons x xs ih =>
    cases xs with
    | nil =>
      have : x = T := hall x (by simp)
      simp [this]
    | cons z zs =>
      rw [List.getLast?_cons_cons]
      refine ih ?_ ?_
      · have hz : z = T := hall z (by simp)
        simp [hz]
      · intro y hy
        exact hall y (by simp [hy])

theorem dictFind?_foldl_insert {α β : Type} (key : β → String) (val : β → α)
    (l : List β) (init : List (String × α)) (k : String) :
    dictFind? (l.foldl (fun acc x => dictInsert acc (key x) (val x)) init) k =
      ((l.filter (fun x => key x == k)).getLast?).elim (dictFind? init k)
        (fun x => some (val x)) := by
  induction l generalizing init with
  | nil => simp
  | cons x xs ih =>
    simp only [List.foldl_cons, List.filter_cons]
    rw [ih]
    by_cases hx : key x = k
    · simp only [hx, beq_self_eq_true, if_pos, cond_true]
      cases hlast : (xs.filter (fun x => key x == k)).getLast? with
      | none =>
        have hnil : xs.filter (fun x => key x == k) = [] :=
          List.getLast?_eq_none_iff.mp hlast
        simp [hnil, dictFind?_insert_self]
      | some y =>
        have hne : xs.filter (fun x => key x == k) ≠ [] := by
          intro hc; rw [hc] at hlast; simp at hlast
        obtain ⟨z, zs, hzz⟩ := List.exists_cons_of_ne_nil hne
        simp [hzz] at hlast ⊢
        simp [hlast]
    · have h1 : dictFind? (dictInsert init (key x) (val x)) k =
          dictFind? init k := dictFind?_insert_ne _ _ _ _ (Ne.symm hx)
      simp [hx, h1]

/-! ## The link operations touch only their own link table -/

theorem ensure_session_link_triples (db : DB) (tid sid : Nat) :
    (ensure_triple_session_link db tid sid).triples = db.triples := by
  unfold ensure_triple_session_link
  split <;> rfl

theorem ensure_chunk_link_triples (db : DB) (tid cid : Nat) :
    (ensure_triple_chunk_link db tid cid).triples = db.triples := by
  unfold ensure_triple_chunk_link
  split <;> rfl

/-! ## Backward-scan characterisation -/

theorem lastIdx_eq_none_iff {α : Type} (p : α → Bool) (l : List α) :
    lastIdx p l = none ↔ ∀ a ∈ l, p a = false := by
  induction l with
  | nil => simp [lastIdx]
  | cons m rest ih =>
    simp only [lastIdx]
    cases hr : lastIdx p rest with
    | some j =>
      simp only [hr]
      constructor
      · intro hc
        exact Option.noConfusion hc
      · intro hall
        have h0 : lastIdx p rest = none :=
          ih.mpr (fun a ha => hall a (List.mem_cons_of_mem _ ha))
        exact Option.noConfusion (h0.symm.trans hr)
    | none =>
      simp only [hr]
      have hrest : ∀ a ∈ rest, p a = false := ih.mp hr
      by_cases hm : p m
      · rw [if_pos hm]
        constructor
        · intro hc
          exact Option.noConfusion hc
        · intro hall
          have := hall m (by simp)
          rw [hm] at this
          exact Bool.noConfusion this
      · rw [if_neg hm]
        constructor
        · intro _ a ha
          rcases List.mem_cons.mp ha with h | h
          · subst h
            simpa using hm
          · exact hrest a h
        · intro _
          rfl

theorem lastIdx_spec {α : Type} (p : α → Bool) (l : List α) (d : α)
    (i : Nat) (h : lastIdx p l = some i) :
    i < l.length ∧ p (l.getD i d) = true ∧
      ∀ j, i < j → j < l.length → p (l.getD j d) = false := by
  induction l generalizing i with
  | nil => simp [lastIdx] at h
  | cons m rest ih =>
    simp only [lastIdx] at h
    cases hr : lastIdx p rest with
    | some j =>
      simp only [hr] at h
      injection h with h
      subst h
      obtain ⟨h1, h2, h3⟩ := ih j hr
      refine ⟨by simpa using Nat.succ_lt_succ h1, by simpa using h2, ?_⟩
      intro k hk1 hk2
      cases k with
      | zero => omega
      | succ k' =>
        rw [List.getD_cons_succ]
        exact h3 k' (by omega) (by simpa using hk2)
    | none =>
      simp only [hr] at h
      by_cases hm : p m
      · rw [if_pos hm] at h
        injection h with h
        subst h
        refine ⟨by simp, by simpa using hm, ?_⟩
        intro j hj1 hj2
        cases j with
        | zero => omega
        | succ j' =>
          have hj' : j' < rest.length := by simpa using hj2
          rw [List.getD_cons_succ, List.getD_eq_getElem rest d hj']
          exact (lastIdx_eq_none_iff p rest).mp hr _ (List.getElem_mem hj')
      · rw [if_neg hm] at h
        exact Option.noConfusion h

theorem lastIdx_eq_some {α : Type} (p : α → Bool) (l : List α) (d : α)
    (i : Nat) (h1 : i < l.length) (h2 : p (l.getD i d) = true)
    (h3 : ∀ j, i < j → j < l.length → p (l.getD j d) = false) :
    lastIdx p l = some i := by
  induction l generalizing i with
  | nil => simp at h1
  | cons m rest ih =>
    simp only [lastIdx]
    cases i with
    | zero =>
      have hrest : lastIdx p rest = none := by
        rw [lastIdx_eq_none_iff]
        intro a ha
        obtain ⟨j, hj, hja⟩ := List.mem_iff_getElem.mp ha
        have := h3 (j + 1) (Nat.succ_pos j) (by simpa using Nat.succ_lt_succ hj)
        rw [List.getD_cons_succ, List.getD_eq_getElem rest d hj, hja] at this
        exact this
      rw [hrest]
      rw [List.getD_cons_zero] at h2
      simp [h2]
    | succ i' =>
      have : lastIdx p rest = some i' := by
        refine ih i' (by simpa using h1) (by simpa using h2) ?_
        intro j hj1 hj2
        have := h3 (j + 1) (by omega) (by simpa using Nat.succ_lt_succ hj2)
        simpa using this
      rw [this]

theorem getD_take_eq {α : Type} (l : List α) (n j : Nat) (d : α)
    (hj : j < n) (hl : j < l.length) :
    (l.take n).getD j d = l.getD j d := by
  have h1 : j < (l.take n).length := by
    rw [List.length_take]
    omega
  rw [List.getD_eq_getElem _ d h1, List.getD_eq_getElem _ d hl]
  exact List.getElem_take _

theorem find?_append_of_none {α : Type} (p : α → Bool) (l1 l2 : List α) :
    l1.find? p = none → (l1 ++ l2).find? p = l2.find? p := by
  induction l1 with
  | nil => intro _; simp
  | cons x xs ih =>
    intro h
    cases hx : p x with
    | true =>
      rw [List.find?_cons_of_pos _ hx] at h
      exact Option.noConfusion h
    | false =>
      rw [List.find?_cons_of_neg _ (by simp [hx])] at h
      rw [List.cons_append, List.find?_cons_of_neg _ (by simp [hx])]
      exact ih h

/-! ## Branch lemmas for the triple upsert loop -/

theorem upsertOne_drop (ids : List (String × Nat)) (ss ck now : Nat)
    (st : DB × List (String × Triple)) (t : TripleData)
    (h : (strTrim t.subject) = "" ∨ (strTrim t.relation_type) = "" ∨
      dictFind? ids (make_entity_key (strTrim t.subject) t.subject_type) = none) :
    upsertOneTriple ids ss ck now st t = st := by
  unfold upsertOneTriple
  rcases h with h | h | h
  · simp [h]
  · simp [h]
  · by_cases h2 : (strTrim t.subject) = "" ∨ (strTrim t.relation_type) = ""
    · simp [h2]
    · simp only [if_neg h2, h]

theorem upsertOne_insert (ids : List (String × Nat)) (ss ck now : Nat)
    (st : DB × List (String × Triple)) (t : TripleData) (sid : Nat)
    (hsub : (strTrim t.subject) ≠ "") (hrel : (strTrim t.relation_type) ≠ "")
    (hs : dictFind? ids (make_entity_key (strTrim t.subject) t.subject_type) =
      some sid)
    (hnone : dictFind? st.2
      (make_triple_key sid (strTrim t.relation_type) (resolveObjId ids t)) = none) :
    upsertOneTriple ids ss ck now st t =
      (ensure_triple_chunk_link
        (ensure_triple_session_link
          { st.1 with
              triples := st.1.triples ++
                [newTriple st.1.nextId sid (resolveObjId ids t)
                  (strTrim t.relation_type) t.relation_text t.importance
                  t.is_state t.confidence now]
              nextId := st.1.nextId + 1 }
          st.1.nextId ss)
        st.1.nextId ck,
       dictInsert st.2
         (make_triple_key sid (strTrim t.relation_type) (resolveObjId ids t))
         (newTriple st.1.nextId sid (resolveObjId ids t)
           (strTrim t.relation_type) t.relation_text t.importance
           t.is_state t.confidence now)) := by
  unfold upsertOneTriple
  rw [if_neg (by simp [hsub, hrel])]
  simp only [hs, hnone]
  rfl

theorem upsertOne_matched (ids : List (String × Nat)) (ss ck now : Nat)
    (st : DB × List (String × Triple)) (t : TripleData) (sid : Nat)
    (T : Triple)
    (hsub : (strTrim t.subject) ≠ "") (hrel : (strTrim t.relation_type) ≠ "")
    (hs : dictFind? ids (make_entity_key (strTrim t.subject) t.subject_type) =
      some sid)
    (hsome : dictFind? st.2
      (make_triple_key sid (strTrim t.relation_type) (resolveObjId ids t)) =
      some T) :
    upsertOneTriple ids ss ck now st t =
      (ensure_triple_chunk_link
        (ensure_triple_session_link
          (st.1.updateTriple
            (updateMatchedTriple T t.importance t.is_state t.confidence now))
          (updateMatchedTriple T t.importance t.is_state t.confidence now).id
          ss)
        (updateMatchedTriple T t.importance t.is_state t.confidence now).id ck,
       dictInsert st.2
         (make_triple_key sid (strTrim t.relation_type) (resolveObjId ids t))
         (updateMatchedTriple T t.importance t.is_state t.confidence now)) := by
  unfold upsertOneTriple
  rw [if_neg (by simp [hsub, hrel])]
  simp only [hs, hsome]

/-! ## Field lemmas for the matched-triple update -/

theorem updateMatchedTriple_id (T : Triple) (imp : Option ℚ)
    (st : Option Bool) (conf : Option ℚ) (now : Nat) :
    (updateMatchedTriple T imp st conf now).id = T.id := rfl

theorem updateMatchedTriple_confidence (T : Triple) (imp : Option ℚ)
    (st : Option Bool) (conf : Option ℚ) (now : Nat) :
    (updateMatchedTriple T imp st conf now).confidence =
      match conf, T.confidence with
      | some c, none => some c
      | some c, some old => if c > old then some c else some old
      | none, _ => T.confidence := by
  rcases conf with _ | c <;> rcases hC : T.confidence with _ | oc <;>
    simp [updateMatchedTriple, hC]

theorem updateMatchedTriple_importance (T : Triple) (imp : Option ℚ)
    (st : Option Bool) (conf : Option ℚ) (now : Nat) :
    (updateMatchedTriple T imp st conf now).importance =
      match imp, T.importance with
      | some i, none => some i
      | some i, some old => if i > old then some i else some old
      | none, _ => T.importance := by
  rcases imp with _ | i <;> rcases hI : T.importance with _ | oi <;>
    simp [updateMatchedTriple, hI]

theorem updateMatchedTriple_is_state (T : Triple) (imp : Option ℚ)
    (st : Option Bool) (conf : Option ℚ) (now : Nat) :
    (updateMatchedTriple T imp st conf now).is_state =
      match st with
      | some b => some b
      | none => T.is_state := by
  rcases st with _ | b <;> simp [updateMatchedTriple]

/-! ## Singleton-batch runs of the triple upsert -/

theorem upsert_singleton_drop (db : DB) (t : TripleData)
    (cache : List (String × Entity)) (ss ck now : Nat)
    (h : (strTrim t.subject) = "" ∨ (strTrim t.relation_type) = "" ∨
      dictFind? (entityIdByKey cache)
        (make_entity_key (strTrim t.subject) t.subject_type) = none) :
    upsert_triples_and_links db [t] cache ss ck now = db := by
  unfold upsert_triples_and_links
  simp only [List.isEmpty_cons, Bool.false_eq_true, if_false,
    List.foldl_cons, List.foldl_nil]
  rw [upsertOne_drop _ _ _ _ _ _ h]

theorem upsert_singleton_insert (db : DB) (t : TripleData)
    (cache : List (String × Entity)) (ss ck now sid : Nat)
    (hsub : (strTrim t.subject) ≠ "") (hrel : (strTrim t.relation_type) ≠ "")
    (hs : dictFind? (entityIdByKey cache)
      (make_entity_key (strTrim t.subject) t.subject_type) = some sid)
    (hnokey : ∀ T ∈ db.triples, tripleKeyOf T ≠
      make_triple_key sid (strTrim t.relation_type)
        (resolveObjId (entityIdByKey cache) t)) :
    (upsert_triples_and_links db [t] cache ss ck now).triples =
      db.triples ++ [newTriple db.nextId sid
        (resolveObjId (entityIdByKey cache) t) (strTrim t.relation_type)
        t.relation_text t.importance t.is_state t.confidence now] := by
  have hnone : ∀ (l : List Triple), (∀ x ∈ l, x ∈ db.triples) →
      dictFind? (l.foldl (fun acc tr => dictInsert acc (tripleKeyOf tr) tr) [])
        (make_triple_key sid (strTrim t.relation_type)
          (resolveObjId (entityIdByKey cache) t)) = none := by
    intro l hl
    rw [dictFind?_foldl_insert (fun tr => tripleKeyOf tr) (fun tr => tr) l []]
    have hfil : l.filter (fun tr => tripleKeyOf tr ==
        make_triple_key sid (strTrim t.relation_type)
          (resolveObjId (entityIdByKey cache) t)) = [] := by
      rw [List.filter_eq_nil_iff]
      intro tr htr
      simpa using hnokey tr (hl tr htr)
    rw [hfil]
    simp [dictFind?]
  unfold upsert_triples_and_links
  simp only [List.isEmpty_cons, Bool.false_eq_true, if_false,
    List.foldl_cons, List.foldl_nil]
  rw [upsertOne_insert _ _ _ _ _ _ _ hsub hrel hs
    (hnone _ (fun x hx => List.mem_of_mem_filter hx))]
  rw [ensure_chunk_link_triples, ensure_session_link_triples]

theorem upsert_singleton_matched (db : DB) (t : TripleData)
    (cache : List (String × Entity)) (ss ck now sid : Nat) (T : Triple)
    (hsub : (strTrim t.subject) ≠ "") (hrel : (strTrim t.relation_type) ≠ "")
    (hs : dictFind? (entityIdByKey cache)
      (make_entity_key (strTrim t.subject) t.subject_type) = some sid)
    (hT : T ∈ db.triples) (hTsub : T.subject_entity_id = sid)
    (hkey : tripleKeyOf T = make_triple_key sid (strTrim t.relation_type)
      (resolveObjId (entityIdByKey cache) t))
    (huniq : ∀ T' ∈ db.triples, tripleKeyOf T' = tripleKeyOf T → T' = T) :
    (upsert_triples_and_links db [t] cache ss ck now).triples =
      db.triples.map (fun x => if x.id = T.id then
        updateMatchedTriple T t.importance t.is_state t.confidence now
        else x) := by
  have hsome : ∀ (l : List Triple), (∀ x ∈ l, x ∈ db.triples) → T ∈ l →
      dictFind? (l.foldl (fun acc tr => dictInsert acc (tripleKeyOf tr) tr) [])
        (make_triple_key sid (strTrim t.relation_type)
          (resolveObjId (entityIdByKey cache) t)) = some T := by
    intro l hl hTl
    rw [dictFind?_foldl_insert (fun tr => tripleKeyOf tr) (fun tr => tr) l []]
    have hmemf : T ∈ l.filter (fun tr => tripleKeyOf tr ==
        make_triple_key sid (strTrim t.relation_type)
          (resolveObjId (entityIdByKey cache) t)) := by
      refine List.mem_filter.mpr ⟨hTl, ?_⟩
      simp [hkey]
    have hall : ∀ x ∈ l.filter (fun tr => tripleKeyOf tr ==
        make_triple_key sid (strTrim t.relation_type)
          (resolveObjId (entityIdByKey cache) t)), x = T := by
      intro x hx
      obtain ⟨hx1, hx2⟩ := List.mem_filter.mp hx
      refine huniq x (hl x hx1) ?_
      rw [hkey]
      simpa using hx2
    rw [getLast?_of_all_eq _ T hmemf hall]
    rfl
  unfold upsert_triples_and_links
  simp only [List.isEmpty_cons, Bool.false_eq_true, if_false,
    List.foldl_cons, List.foldl_nil, hsub, hs, ne_eq,
    List.not_mem_nil, List.nil_append]
  rw [upsertOne_matched _ _ _ _ _ _ _ _ hsub hrel hs
    (hsome _ (fun x hx => List.mem_of_mem_filter hx)
      (List.mem_filter.mpr ⟨hT, by simp [hTsub]⟩))]
  rw [ensure_chunk_link_triples, ensure_session_link_triples]
  simp only [DB.updateTriple, updateMatchedTriple_id]

/-! ## Alias-set lemmas -/

theorem pySetList_aux (l acc : List String) :
    (∀ a, a ∈ l.foldl
        (fun acc a => if a ∈ acc then acc else acc ++ [a]) acc ↔
      a ∈ acc ∨ a ∈ l) ∧
    (acc.Nodup → (l.foldl
        (fun acc a => if a ∈ acc then acc else acc ++ [a]) acc).Nodup) := by
  induction l generalizing acc with
  | nil => simp
  | cons x xs ih =>
    simp only [List.foldl_cons]
    constructor
    · intro a
      rw [(ih _).1 a]
      by_cases hx : x ∈ acc
      · rw [if_pos hx]
        simp only [List.mem_cons]
        constructor
        · tauto
        · rintro (h | h | h)
          · tauto
          · subst h
            tauto
          · tauto
      · rw [if_neg hx]
        simp only [List.mem_append, List.mem_cons, List.not_mem_nil,
          or_false]
        tauto
    · intro hacc
      refine (ih _).2 ?_
      by_cases hx : x ∈ acc
      · rw [if_pos hx]
        exact hacc
      · rw [if_neg hx]
        rw [List.nodup_append]
        exact ⟨hacc, List.nodup_singleton x, by simpa using hx⟩

theorem pySetList_mem (l : List String) (a : String) :
    a ∈ pySetList l ↔ a ∈ l := by
  unfold pySetList
  rw [(pySetList_aux l []).1 a]
  simp

theorem pySetList_nodup (l : List String) : (pySetList l).Nodup :=
  (pySetList_aux l []).2 List.nodup_nil

theorem unionAliases_aux (given acc : List String) :
    (∀ a, a ∈ given.foldl
        (fun acc a => if a ≠ "" ∧ a ∉ acc then acc ++ [a] else acc) acc ↔
      a ∈ acc ∨ (a ∈ given ∧ a ≠ "")) ∧
    (acc.Nodup → (given.foldl
        (fun acc a => if a ≠ "" ∧ a ∉ acc then acc ++ [a] else acc)
        acc).Nodup) := by
  induction given generalizing acc with
  | nil => simp
  | cons x xs ih =>
    simp only [List.foldl_cons]
    constructor
    · intro a
      rw [(ih _).1 a]
      by_cases hx : x ≠ "" ∧ x ∉ acc
      · rw [if_pos hx]
        simp only [List.mem_append, List.mem_cons, List.not_mem_nil,
          or_false]
        constructor
        · rintro ((h | h) | h)
          · tauto
          · subst h
            exact Or.inr ⟨Or.inl rfl, hx.1⟩
          · tauto
        · rintro (h | ⟨h1 | h1, h2⟩)
          · tauto
          · subst h1
            tauto
          · tauto
      · rw [if_neg hx]
        simp only [List.mem_cons]
        rcases not_and_or.mp hx with hx1 | hx2
        · have hx1' : x = "" := not_not.mp hx1
          constructor
          · tauto
          · rintro (h | ⟨h1 | h1, h2⟩)
            · tauto
            · subst h1
              exact absurd hx1' h2
            · tauto
        · have hx2' : x ∈ acc := not_not.mp hx2
          constructor
          · tauto
          · rintro (h | ⟨h1 | h1, h2⟩)
            · tauto
            · subst h1
              tauto
            · tauto
    · intro hacc
      refine (ih _).2 ?_
      by_cases hx : x ≠ "" ∧ x ∉ acc
      · rw [if_pos hx]
        rw [List.nodup_append]
        exact ⟨hacc, List.nodup_singleton x, by simpa using hx.2⟩
      · rw [if_neg hx]
        exact hacc

theorem unionAliases_mem (old given : List String) (a : String) :
    a ∈ unionAliases old given ↔ a ∈ old ∨ (a ∈ given ∧ a ≠ "") := by
  unfold unionAliases
  rw [(unionAliases_aux given (pySetList old)).1 a, pySetList_mem]

theorem unionAliases_nodup (old given : List String) :
    (unionAliases old given).Nodup :=
  (unionAliases_aux given (pySetList old)).2 (pySetList_nodup old)

/-! ## General runs of the entity resolver -/

theorem except_bind_ok {ε α β : Type} (a : α) (f : α → Except ε β) :
    (Except.ok a >>= f : Except ε β) = f a := rfl

theorem except_pure_eq_ok {ε α : Type} (a : α) :
    (pure a : Except ε α) = Except.ok a := rfl

theorem map_update_id_of_ne (l : List Entity) (nid : Nat) (v : Entity)
    (h : ∀ x ∈ l, x.id ≠ nid) :
    l.map (fun x => if x.id = nid then v else x) = l := by
  induction l with
  | nil => rfl
  | cons a as ih =>
    simp only [List.map_cons]
    rw [if_neg (h a (by simp)), ih (fun x hx => h x (by simp [hx]))]

/-- A batch holding two mentions with the same canonical key, for a name
not yet in the store, creates exactly one entity row — carrying the first
mention's name/type and both mentions' aliases merged — and the returned
cache maps the shared key to that row. -/
theorem upsert_entities_pair_same_key (db : DB) (concurrent : List Entity)
    (now : Nat) (e1 e2 : EntityData)
    (hn1 : strTrim (e1.canonical_name.getD "") ≠ "")
    (hn2 : strTrim (e2.canonical_name.getD "") ≠ "")
    (hk : make_entity_key (strTrim (e1.canonical_name.getD ""))
        e1.entity_type =
      make_entity_key (strTrim (e2.canonical_name.getD "")) e2.entity_type)
    (hquery : ∀ E ∈ db.entities,
      E.canonical_name ≠ strTrim (e2.canonical_name.getD ""))
    (hconfl : ∀ E ∈ db.entities ++ concurrent,
      ¬(E.canonical_name = strTrim (e1.canonical_name.getD "") ∧
        E.entity_type = e1.entity_type))
    (hfresh : ∀ E ∈ db.entities, E.id ≠ db.nextId) :
    ∃ cache, upsert_entities db concurrent [e1, e2] now =
        Except.ok ({ db with
            entities := db.entities ++
              [{ id := db.nextId
                 canonical_name := strTrim (e1.canonical_name.getD "")
                 entity_type := e1.entity_type
                 aliases := if e2.aliases.isEmpty then e1.aliases
                            else unionAliases e1.aliases e2.aliases
                 first_seen_at := now
                 last_seen_at := now }]
            nextId := db.nextId + 1 }, cache) ∧
      dictFind? cache (make_entity_key
          (strTrim (e2.canonical_name.getD "")) e2.entity_type) =
        some { id := db.nextId
               canonical_name := strTrim (e1.canonical_name.getD "")
               entity_type := e1.entity_type
               aliases := if e2.aliases.isEmpty then e1.aliases
                          else unionAliases e1.aliases e2.aliases
               first_seen_at := now
               last_seen_at := now } := by
  have hfilter : db.entities.filter (fun ent =>
      [strTrim (e2.canonical_name.getD "")].contains ent.canonical_name)
      = [] := by
    rw [List.filter_eq_nil_iff]
    intro E hE
    simpa using hquery E hE
  have hany : ((db.entities ++ concurrent).any fun x =>
      decide (x.canonical_name = strTrim (e1.canonical_name.getD "") ∧
        x.entity_type = e1.entity_type)) = false := by
    rw [List.any_eq_false]
    intro x hx
    simpa using hconfl x hx
  have hmapid := map_update_id_of_ne db.entities db.nextId
    { id := db.nextId
      canonical_name := strTrim (e1.canonical_name.getD "")
      entity_type := e1.entity_type
      aliases := if e2.aliases.isEmpty then e1.aliases
                 else unionAliases e1.aliases e2.aliases
      first_seen_at := now
      last_seen_at := now } hfresh
  have hrun : upsert_entities db concurrent [e1, e2] now =
      Except.ok ({ db with
          entities := db.entities ++
            [{ id := db.nextId
               canonical_name := strTrim (e1.canonical_name.getD "")
               entity_type := e1.entity_type
               aliases := if e2.aliases.isEmpty then e1.aliases
                          else unionAliases e1.aliases e2.aliases
               first_seen_at := now
               last_seen_at := now }]
          nextId := db.nextId + 1 },
        [(make_entity_key (strTrim (e2.canonical_name.getD ""))
            e2.entity_type,
          { id := db.nextId
            canonical_name := strTrim (e1.canonical_name.getD "")
            entity_type := e1.entity_type
            aliases := if e2.aliases.isEmpty then e1.aliases
                       else unionAliases e1.aliases e2.aliases
            first_seen_at := now
            last_seen_at := now })]) := by
    unfold upsert_entities
    simp only [List.foldl_cons, List.foldl_nil, List.foldlM_cons,
      List.foldlM_nil, hn1, hn2, hk, dictInsert, dictFind?, hfilter, hany,
      eq_self_iff_true, if_true, if_false, Bool.false_eq_true,
      List.isEmpty_cons, List.map_cons, List.map_nil, ite_false, ite_true,
      DB.updateEntity, List.map_append, ne_eq, except_bind_ok,
      except_pure_eq_ok, hmapid]
  exact ⟨_, hrun, by simp [dictFind?]⟩

/-- A later-turn mention whose trimmed name equals a stored row's
`canonical_name` exactly, and whose type folds to that row's canonical key
(the row being the store's only one with that key), resolves to the
persisted record: the row is updated in place — `last_seen_at` bumped,
aliases merged — no new row is created, and the returned cache maps the
canonical key to the updated record. -/
theorem upsert_entities_reuse_exact_name (db : DB)
    (concurrent : List Entity) (now : Nat) (e : EntityData) (E : Entity)
    (hE : E ∈ db.entities)
    (hname : strTrim (e.canonical_name.getD "") = E.canonical_name)
    (hne : E.canonical_name ≠ "")
    (hkey : make_entity_key E.canonical_name e.entity_type =
      make_entity_key E.canonical_name E.entity_type)
    (huniq : ∀ E' ∈ db.entities,
      make_entity_key E'.canonical_name E'.entity_type =
        make_entity_key E.canonical_name E.entity_type → E' = E) :
    ∃ cache, upsert_entities db concurrent [e] now =
        Except.ok (db.updateEntity
          { E with
              last_seen_at := now
              aliases := if e.aliases.isEmpty then E.aliases
                         else unionAliases E.aliases e.aliases }, cache) ∧
      dictFind? cache (make_entity_key E.canonical_name E.entity_type) =
        some { E with
          last_seen_at := now
          aliases := if e.aliases.isEmpty then E.aliases
                     else unionAliases E.aliases e.aliases } := by
  have hcacheGen : ∀ (l : List Entity), (∀ x ∈ l, x ∈ db.entities) →
      E ∈ l →
      dictFind? (l.foldl (fun c ent =>
          dictInsert c (make_entity_key ent.canonical_name ent.entity_type)
            ent) [])
        (make_entity_key E.canonical_name E.entity_type) = some E := by
    intro l hl hEl
    rw [dictFind?_foldl_insert
      (fun ent => make_entity_key ent.canonical_name ent.entity_type)
      (fun ent => ent) l []]
    have hmemf : E ∈ l.filter (fun ent =>
        make_entity_key ent.canonical_name ent.entity_type ==
          make_entity_key E.canonical_name E.entity_type) :=
      List.mem_filter.mpr ⟨hEl, by simp⟩
    have hall : ∀ x ∈ l.filter (fun ent =>
        make_entity_key ent.canonical_name ent.entity_type ==
          make_entity_key E.canonical_name E.entity_type), x = E := by
      intro x hx
      obtain ⟨hx1, hx2⟩ := List.mem_filter.mp hx
      exact huniq x (hl x hx1) (by simpa using hx2)
    rw [getLast?_of_all_eq _ E hmemf hall]
    rfl
  have hrun : upsert_entities db concurrent [e] now = Except.ok
      (db.updateEntity
        { E with
            last_seen_at := now
            aliases := if e.aliases.isEmpty then E.aliases
                       else unionAliases E.aliases e.aliases },
       dictInsert
        ((db.entities.filter (fun ent =>
            [E.canonical_name].contains ent.canonical_name)).foldl
          (fun c ent => dictInsert c
            (make_entity_key ent.canonical_name ent.entity_type) ent) [])
        (make_entity_key E.canonical_name E.entity_type)
        { E with
            last_seen_at := now
            aliases := if e.aliases.isEmpty then E.aliases
                       else unionAliases E.aliases e.aliases }) := by
    unfold upsert_entities
    simp only [List.foldl_cons, List.foldl_nil, hname]
    rw [if_neg hne]
    simp only [List.foldlM_cons, List.foldlM_nil]
    rw [hname, hkey]
    simp only [dictInsert, List.isEmpty_cons, Bool.false_eq_true, if_false,
      List.map_cons, List.map_nil]
    rw [if_neg hne]
    rw [hcacheGen _ (fun x hx => List.mem_of_mem_filter hx)
      (List.mem_filter.mpr ⟨hE, by simp⟩)]
    rfl
  exact ⟨_, hrun, dictFind?_insert_self _ _ _⟩

/-! ## Shared concrete example -/

/-- The spec's running example conversation:
`[sys, user:"hi", assistant:"hello", user:"bye", assistant:"goodbye"]`. -/
def exampleConv : Conversation :=
  ⟨"c1", [⟨"system", "sys", 0⟩, ⟨"user", "hi", 1⟩, ⟨"assistant", "hello", 2⟩,
          ⟨"user", "bye", 3⟩, ⟨"assistant", "goodbye", 4⟩]⟩

/-! ## Claim theorems -/

/-- C5: the chunk builder selects the most recent assistant message and the
nearest user message strictly before it, scanning backward independently
per role, and the chunk text is the literal two-line concatenation
`"user: <u>\nassistant: <a>"`; on the example conversation
`[sys, user:"hi", assistant:"hello", user:"bye", assistant:"goodbye"]`
the chunk text is `"user: bye\nassistant: goodbye"`. -/
theorem latest_pair_selection :
    (∀ (conv : Conversation) (u a : Message),
      get_latest_user_assistant_pair conv = some (u, a) →
      ∃ ui ai : Nat, ui < ai ∧ ai < conv.messages.length ∧
        conv.messages.getD ai defaultMsg = a ∧ a.role = "assistant" ∧
        conv.messages.getD ui defaultMsg = u ∧ u.role = "user" ∧
        (∀ j, ai < j → j < conv.messages.length →
          (conv.messages.getD j defaultMsg).role ≠ "assistant") ∧
        (∀ j, ui < j → j < ai →
          (conv.messages.getD j defaultMsg).role ≠ "user")) ∧
    (∀ (db : DB) (conv : Conversation) (ss : SessionSummary) (u a : Message),
      ((create_memory_chunk db conv ss (u, a)).2).text =
        "user: " ++ u.content ++ "\nassistant: " ++ a.content) ∧
    (get_latest_user_assistant_pair exampleConv =
      some (⟨"user", "bye", 3⟩, ⟨"assistant", "goodbye", 4⟩)) ∧
    ((create_memory_chunk DB.empty exampleConv
        ⟨0, "c1", 0, 4, none, [], [], 0, 0⟩
        (⟨"user", "bye", 3⟩, ⟨"assistant", "goodbye", 4⟩)).2.text =
      "user: bye\nassistant: goodbye") := by
  refine ⟨?_, fun _ _ _ _ _ => rfl, by decide, rfl⟩
  intro conv u a h
  unfold get_latest_user_assistant_pair at h
  by_cases hlen : conv.messages.length < 2
  · rw [if_pos hlen] at h
    exact Option.noConfusion h
  · rw [if_neg hlen] at h
    cases ha : lastIdx (fun m => m.role == "assistant") conv.messages with
    | none =>
      simp only [ha] at h
      exact Option.noConfusion h
    | some ai =>
      simp only [ha] at h
      cases hu : lastIdx (fun m => m.role == "user")
          (conv.messages.take ai) with
      | none =>
        simp only [hu] at h
        exact Option.noConfusion h
      | some ui =>
        simp only [hu] at h
        have h' := Option.some.inj h
        have hu' : conv.messages.getD ui defaultMsg = u :=
          congrArg Prod.fst h'
        have ha' : conv.messages.getD ai defaultMsg = a :=
          congrArg Prod.snd h'
        obtain ⟨ha1, ha2, ha3⟩ :=
          lastIdx_spec (fun m => m.role == "assistant") conv.messages
            defaultMsg ai ha
        obtain ⟨hu1, hu2, hu3⟩ :=
          lastIdx_spec (fun m => m.role == "user")
            (conv.messages.take ai) defaultMsg ui hu
        have htlen : (conv.messages.take ai).length = ai := by
          rw [List.length_take]
          omega
        have hui_lt : ui < ai := htlen ▸ hu1
        have hui_len : ui < conv.messages.length := hui_lt.trans ha1
        have htake : (conv.messages.take ai).getD ui defaultMsg =
            conv.messages.getD ui defaultMsg :=
          getD_take_eq _ _ _ _ hui_lt hui_len
        refine ⟨ui, ai, hui_lt, ha1, ha', ?_, hu', ?_, ?_, ?_⟩
        · rw [← ha']
          simpa using ha2
        · rw [← hu', ← htake]
          simpa using hu2
        · intro j hj1 hj2
          have := ha3 j hj1 hj2
          simpa using this
        · intro j hj1 hj2
          have := hu3 j hj1 (by rw [htlen]; exact hj2)
          rw [getD_take_eq _ _ _ _ hj2 (hj2.trans ha1)] at this
          simpa using this

/-- C5 witness: the general selection property applied to the example
conversation. -/
theorem latest_pair_selection_witness :
    ∃ ui ai : Nat, ui < ai ∧ ai < exampleConv.messages.length ∧
      exampleConv.messages.getD ai defaultMsg = ⟨"assistant", "goodbye", 4⟩ ∧
      (Message.mk "assistant" "goodbye" 4).role = "assistant" ∧
      exampleConv.messages.getD ui defaultMsg = ⟨"user", "bye", 3⟩ ∧
      (Message.mk "user" "bye" 3).role = "user" ∧
      (∀ j, ai < j → j < exampleConv.messages.length →
        (exampleConv.messages.getD j defaultMsg).role ≠ "assistant") ∧
      (∀ j, ui < j → j < ai →
        (exampleConv.messages.getD j defaultMsg).role ≠ "user") :=
  latest_pair_selection.1 exampleConv ⟨"user", "bye", 3⟩
    ⟨"assistant", "goodbye", 4⟩ (by decide)

/-- C6: a conversation with fewer than two messages, or with no assistant
message, or with no user message preceding the last assistant message,
produces no evidence pair, and the pipeline performs no writes at all:
the transaction state — committed and pending alike — is returned
untouched (no chunk, no session-summary creation or mutation). -/
theorem skip_condition_no_writes
    (s : TxState) (conv : Conversation)
    (extraction : Except AppError Extraction) (concurrent : List Entity)
    (now : Nat)
    (h : conv.messages.length < 2 ∨
      (∀ m ∈ conv.messages, m.role ≠ "assistant") ∨
      (∃ i, i < conv.messages.length ∧
        (conv.messages.getD i defaultMsg).role = "assistant" ∧
        (∀ j, i < j → j < conv.messages.length →
          (conv.messages.getD j defaultMsg).role ≠ "assistant") ∧
        (∀ j, j < i → (conv.messages.getD j defaultMsg).role ≠ "user"))) :
    get_latest_user_assistant_pair conv = none ∧
    update_memory_after_turn s conv extraction concurrent now = s := by
  have hpair : get_latest_user_assistant_pair conv = none := by
    unfold get_latest_user_assistant_pair
    by_cases hlen : conv.messages.length < 2
    · rw [if_pos hlen]
    · rw [if_neg hlen]
      rcases h with h | h | h
      · exact absurd h hlen
      · have : lastIdx (fun m => m.role == "assistant") conv.messages
            = none := by
          rw [lastIdx_eq_none_iff]
          intro m hm
          simpa using h m hm
        rw [this]
      · obtain ⟨i, hi1, hi2, hi3, hi4⟩ := h
        have hA : lastIdx (fun m => m.role == "assistant") conv.messages
            = some i := by
          refine lastIdx_eq_some _ _ defaultMsg i hi1 (by simpa using hi2) ?_
          intro j hj1 hj2
          simpa using hi3 j hj1 hj2
        have hU : lastIdx (fun m => m.role == "user")
            (conv.messages.take i) = none := by
          rw [lastIdx_eq_none_iff]
          intro m hm
          obtain ⟨j, hj, hjm⟩ := List.mem_iff_getElem.mp hm
          have hj_lt_i : j < i := by
            have := hj
            rw [List.length_take] at this
            omega
          have hj_len : j < conv.messages.length := hj_lt_i.trans hi1
          have hgd : (conv.messages.take i).getD j defaultMsg = m := by
            rw [List.getD_eq_getElem _ defaultMsg hj, hjm]
          rw [getD_take_eq _ _ _ _ hj_lt_i hj_len] at hgd
          have := hi4 j hj_lt_i
          rw [hgd] at this
          simpa using this
        simp only [hA, hU]
  refine ⟨hpair, ?_⟩
  unfold update_memory_after_turn
  rw [hpair]

/-- C6 witness: a conversation holding only a system message and one user
message (no assistant reply yet) is silently skipped. -/
theorem skip_condition_no_writes_witness :
    get_latest_user_assistant_pair
        ⟨"c2", [⟨"system", "sys", 0⟩, ⟨"user", "hi", 1⟩]⟩ = none ∧
    update_memory_after_turn ⟨DB.empty, DB.empty⟩
        ⟨"c2", [⟨"system", "sys", 0⟩, ⟨"user", "hi", 1⟩]⟩
        (Except.ok ⟨⟨none, [], []⟩, [], []⟩) [] 7 =
      ⟨DB.empty, DB.empty⟩ :=
  skip_condition_no_writes ⟨DB.empty, DB.empty⟩
    ⟨"c2", [⟨"system", "sys", 0⟩, ⟨"user", "hi", 1⟩]⟩
    (Except.ok ⟨⟨none, [], []⟩, [], []⟩) [] 7
    (Or.inr (Or.inl (by decide)))

/-- C9: link insertion is idempotent for both link kinds: re-running
`ensure_triple_session_link` / `ensure_triple_chunk_link` on the same pair
changes nothing, and starting from a state with no row for the pair, two
consecutive calls leave exactly one row for it. -/
theorem link_idempotent (db : DB) (tid sid cid : Nat) :
    (ensure_triple_session_link (ensure_triple_session_link db tid sid)
        tid sid = ensure_triple_session_link db tid sid) ∧
    ((db.sessionLinks.filter (fun l =>
        l.triple_id == tid && l.session_summary_id == sid)).length = 0 →
      ((ensure_triple_session_link (ensure_triple_session_link db tid sid)
          tid sid).sessionLinks.filter (fun l =>
            l.triple_id == tid && l.session_summary_id == sid)).length = 1) ∧
    (ensure_triple_chunk_link (ensure_triple_chunk_link db tid cid)
        tid cid = ensure_triple_chunk_link db tid cid) ∧
    ((db.chunkLinks.filter (fun l =>
        l.triple_id == tid && l.chunk_id == cid)).length = 0 →
      ((ensure_triple_chunk_link (ensure_triple_chunk_link db tid cid)
          tid cid).chunkLinks.filter (fun l =>
            l.triple_id == tid && l.chunk_id == cid)).length = 1) := by
  have hsess : ensure_triple_session_link (ensure_triple_session_link db tid sid)
      tid sid = ensure_triple_session_link db tid sid := by
    unfold ensure_triple_session_link
    cases hf : db.sessionLinks.find? (fun l =>
        l.triple_id == tid && l.session_summary_id == sid) with
    | some l => simp [hf]
    | none => simp [hf]
  have hchunk : ensure_triple_chunk_link (ensure_triple_chunk_link db tid cid)
      tid cid = ensure_triple_chunk_link db tid cid := by
    unfold ensure_triple_chunk_link
    cases hf : db.chunkLinks.find? (fun l =>
        l.triple_id == tid && l.chunk_id == cid) with
    | some l => simp [hf]
    | none => simp [hf]
  refine ⟨hsess, ?_, hchunk, ?_⟩
  · intro hcount
    have hnil : db.sessionLinks.filter (fun l =>
        l.triple_id == tid && l.session_summary_id == sid) = [] :=
      List.length_eq_zero.mp hcount
    have hf : db.sessionLinks.find? (fun l =>
        l.triple_id == tid && l.session_summary_id == sid) = none := by
      rw [List.find?_eq_none]
      intro x hx hpx
      have : x ∈ db.sessionLinks.filter (fun l =>
          l.triple_id == tid && l.session_summary_id == sid) :=
        List.mem_filter.mpr ⟨hx, hpx⟩
      rw [hnil] at this
      cases this
    rw [hsess]
    unfold ensure_triple_session_link
    simp only [hf]
    simp [List.filter_append, hnil]
  · intro hcount
    have hnil : db.chunkLinks.filter (fun l =>
        l.triple_id == tid && l.chunk_id == cid) = [] :=
      List.length_eq_zero.mp hcount
    have hf : db.chunkLinks.find? (fun l =>
        l.triple_id == tid && l.chunk_id == cid) = none := by
      rw [List.find?_eq_none]
      intro x hx hpx
      have : x ∈ db.chunkLinks.filter (fun l =>
          l.triple_id == tid && l.chunk_id == cid) :=
        List.mem_filter.mpr ⟨hx, hpx⟩
      rw [hnil] at this
      cases this
    rw [hchunk]
    unfold ensure_triple_chunk_link
    simp only [hf]
    simp [List.filter_append, hnil]

/-- C9 witness: both idempotence statements evaluated on the empty
database with triple 1, session 2, chunk 3. -/
theorem link_idempotent_witness :
    ((DB.empty.sessionLinks.filter (fun l =>
        l.triple_id == 1 && l.session_summary_id == 2)).length = 0) ∧
    ((ensure_triple_session_link (ensure_triple_session_link DB.empty 1 2)
        1 2).sessionLinks.filter (fun l =>
          l.triple_id == 1 && l.session_summary_id == 2)).length = 1 :=
  ⟨by decide, (link_idempotent DB.empty 1 2 3).2.1 (by decide)⟩

/-- Entity cache used by the concrete C2 runs: a single resolved entity
`("Oliver", "Person")` with id 7. -/
def c2Cache : List (String × Entity) :=
  [("oliver|person", ⟨7, "Oliver", some "Person", [], 0, 0⟩)]

/-- Candidate triple for the concrete C2 runs: subject `Oliver`, given
relation label and confidence, no object, no importance, no is_state. -/
def c2Cand (c : ℚ) (rel : String) : TripleData :=
  ⟨"Oliver", some "Person", "", none, rel, none, none, none, some c⟩

/-- Database after the first C2 upsert (confidence 2/5 = 0.4). -/
def c2Db1 : DB :=
  upsert_triples_and_links { DB.empty with nextId := 10 }
    [c2Cand (mkRat 2 5) "Likes"] c2Cache 100 200 0

/-- C2: for a triple matched by its dedup key (subject id, lowercased
relation, object-id-or-empty), a numeric importance or confidence is
adopted only when the stored value is null or strictly smaller — so the
stored value becomes the max of old and new, never decreases, and is left
alone when no numeric value is supplied; re-upserting confidence 0.4 then
0.2 leaves 0.4, and 0.4 then 0.9 yields 0.9 (the second run matching the
key through a differently-cased relation label). -/
theorem triple_importance_confidence_monotone :
    (∀ (T : Triple) (imp : Option ℚ) (st : Option Bool) (conf : Option ℚ)
        (now : Nat) (q c : ℚ), T.confidence = some q → conf = some c →
        (updateMatchedTriple T imp st conf now).confidence = some (max q c)) ∧
    (∀ (T : Triple) (imp : Option ℚ) (st : Option Bool) (conf : Option ℚ)
        (now : Nat), T.confidence = none →
        (updateMatchedTriple T imp st conf now).confidence = conf) ∧
    (∀ (T : Triple) (imp : Option ℚ) (st : Option Bool) (conf : Option ℚ)
        (now : Nat) (q : ℚ), T.confidence = some q →
        ∃ r, (updateMatchedTriple T imp st conf now).confidence = some r ∧
          q ≤ r) ∧
    (∀ (T : Triple) (imp : Option ℚ) (st : Option Bool) (conf : Option ℚ)
        (now : Nat) (q i : ℚ), T.importance = some q → imp = some i →
        (updateMatchedTriple T imp st conf now).importance = some (max q i)) ∧
    (∀ (T : Triple) (imp : Option ℚ) (st : Option Bool) (conf : Option ℚ)
        (now : Nat), T.importance = none →
        (updateMatchedTriple T imp st conf now).importance = imp) ∧
    (∀ (T : Triple) (imp : Option ℚ) (st : Option Bool) (conf : Option ℚ)
        (now : Nat) (q : ℚ), T.importance = some q →
        ∃ r, (updateMatchedTriple T imp st conf now).importance = some r ∧
          q ≤ r) ∧
    (∀ (db : DB) (t : TripleData) (cache : List (String × Entity))
        (ss ck now sid : Nat) (T : Triple),
        (strTrim t.subject) ≠ "" → (strTrim t.relation_type) ≠ "" →
        dictFind? (entityIdByKey cache)
          (make_entity_key (strTrim t.subject) t.subject_type) = some sid →
        T ∈ db.triples → T.subject_entity_id = sid →
        tripleKeyOf T = make_triple_key sid (strTrim t.relation_type)
          (resolveObjId (entityIdByKey cache) t) →
        (∀ T' ∈ db.triples, tripleKeyOf T' = tripleKeyOf T → T' = T) →
        (upsert_triples_and_links db [t] cache ss ck now).triples =
          db.triples.map (fun x => if x.id = T.id then
            updateMatchedTriple T t.importance t.is_state t.confidence now
            else x)) ∧
    (c2Db1.triples.map Triple.confidence = [some (mkRat 2 5)]) ∧
    ((upsert_triples_and_links c2Db1 [c2Cand (mkRat 1 5) "likes"] c2Cache
        100 200 1).triples.map Triple.confidence = [some (mkRat 2 5)]) ∧
    ((upsert_triples_and_links c2Db1 [c2Cand (mkRat 9 10) "LIKES"] c2Cache
        100 200 1).triples.map Triple.confidence = [some (mkRat 9 10)]) := by
  have hmax : ∀ (q c : ℚ), (if c > q then some c else some q) =
      some (max q c) := by
    intro q c
    by_cases hlt : q < c
    · rw [if_pos hlt, max_eq_right (le_of_lt hlt)]
    · rw [if_neg hlt, max_eq_left (not_lt.mp hlt)]
  refine ⟨?_, ?_, ?_, ?_, ?_, ?_,
    fun db t cache ss ck now sid T h1 h2 h3 h4 h5 h6 h7 =>
      upsert_singleton_matched db t cache ss ck now sid T h1 h2 h3 h4 h5 h6 h7,
    by decide, by decide, by decide⟩
  · intro T imp st conf now q c hq hc
    rw [updateMatchedTriple_confidence, hq, hc]
    exact hmax q c
  · intro T imp st conf now hq
    rw [updateMatchedTriple_confidence, hq]
    rcases conf with _ | c <;> simp
  · intro T imp st conf now q hq
    rw [updateMatchedTriple_confidence, hq]
    rcases conf with _ | c
    · exact ⟨q, rfl, le_refl q⟩
    · refine ⟨max q c, ?_, le_max_left q c⟩
      show (if c > q then some c else some q) = some (max q c)
      exact hmax q c
  · intro T imp st conf now q i hq hi
    rw [updateMatchedTriple_importance, hq, hi]
    exact hmax q i
  · intro T imp st conf now hq
    rw [updateMatchedTriple_importance, hq]
    rcases imp with _ | i <;> simp
  · intro T imp st conf now q hq
    rw [updateMatchedTriple_importance, hq]
    rcases imp with _ | i
    · exact ⟨q, rfl, le_refl q⟩
    · refine ⟨max q i, ?_, le_max_left q i⟩
      show (if i > q then some i else some q) = some (max q i)
      exact hmax q i

/-- C2 witness: the end-to-end matched-update equation applied to the
concrete second upsert of the 0.4-then-0.9 scenario. -/
theorem triple_importance_confidence_monotone_witness :
    (upsert_triples_and_links c2Db1 [c2Cand (mkRat 9 10) "LIKES"] c2Cache
        100 200 1).triples =
      c2Db1.triples.map (fun x => if x.id = 10 then
        updateMatchedTriple ⟨10, 7, none, "Likes", none, none, some false,
          some (mkRat 2 5), 0, 0⟩ none none (some (mkRat 9 10)) 1
        else x) :=
  triple_importance_confidence_monotone.2.2.2.2.2.2.1 c2Db1
    (c2Cand (mkRat 9 10) "LIKES") c2Cache 100 200 1 7
    ⟨10, 7, none, "Likes", none, none, some false, some (mkRat 2 5), 0, 0⟩
    (by decide) (by decide) (by decide) (by decide) (by decide) (by decide)
    (by decide)

/-- C7: a candidate triple whose subject does not resolve to an entity of
the same extraction batch — or whose trimmed subject name or relation
type is empty — is dropped entirely: the per-candidate step leaves the
state untouched in any batch, and a singleton batch leaves the whole
database unchanged (no triple row, no link rows). -/
theorem unresolved_subject_dropped :
    (∀ (ids : List (String × Nat)) (ss ck now : Nat)
        (st : DB × List (String × Triple)) (t : TripleData),
        ((strTrim t.subject) = "" ∨ (strTrim t.relation_type) = "" ∨
          dictFind? ids
            (make_entity_key (strTrim t.subject) t.subject_type) = none) →
        upsertOneTriple ids ss ck now st t = st) ∧
    (∀ (db : DB) (t : TripleData) (cache : List (String × Entity))
        (ss ck now : Nat),
        ((strTrim t.subject) = "" ∨ (strTrim t.relation_type) = "" ∨
          dictFind? (entityIdByKey cache)
            (make_entity_key (strTrim t.subject) t.subject_type) = none) →
        upsert_triples_and_links db [t] cache ss ck now = db) :=
  ⟨upsertOne_drop, upsert_singleton_drop⟩

/-- C7 witness: a candidate with subject `Bob`, undeclared in the batch's
entity cache, leaves the database exactly as it was. -/
theorem unresolved_subject_dropped_witness :
    upsert_triples_and_links { DB.empty with nextId := 3 }
      [⟨"Bob", none, "", none, "likes", none, none, none, none⟩]
      [("oliver|person", ⟨7, "Oliver", some "Person", [], 0, 0⟩)]
      100 200 5 = { DB.empty with nextId := 3 } :=
  unresolved_subject_dropped.2 { DB.empty with nextId := 3 }
    ⟨"Bob", none, "", none, "likes", none, none, none, none⟩
    [("oliver|person", ⟨7, "Oliver", some "Person", [], 0, 0⟩)]
    100 200 5 (Or.inr (Or.inr (by decide)))

/-- C8: a candidate triple with a resolvable subject and non-empty
relation whose non-empty object name resolves to no declared entity of
the batch is still inserted — with `object_entity_id = null` — rather
than dropped; the unresolved object reaches the dedup key only as the
empty object component. -/
theorem unresolved_object_inserted_null
    (db : DB) (t : TripleData) (cache : List (String × Entity))
    (ss ck now sid : Nat)
    (hsub : (strTrim t.subject) ≠ "") (hrel : (strTrim t.relation_type) ≠ "")
    (hs : dictFind? (entityIdByKey cache)
      (make_entity_key (strTrim t.subject) t.subject_type) = some sid)
    (hobj : (strTrim t.object) ≠ "")
    (hobju : dictFind? (entityIdByKey cache)
      (make_entity_key (strTrim t.object) t.object_type) = none)
    (hnokey : ∀ T ∈ db.triples, tripleKeyOf T ≠
      make_triple_key sid (strTrim t.relation_type) none) :
    (upsert_triples_and_links db [t] cache ss ck now).triples =
      db.triples ++ [newTriple db.nextId sid none (strTrim t.relation_type)
        t.relation_text t.importance t.is_state t.confidence now] ∧
    (newTriple db.nextId sid none (strTrim t.relation_type)
      t.relation_text t.importance t.is_state t.confidence
      now).object_entity_id = none := by
  have hobjid : resolveObjId (entityIdByKey cache) t = none := by
    unfold resolveObjId
    rw [if_neg hobj, hobju]
  refine ⟨?_, rfl⟩
  have hnokey' : ∀ T ∈ db.triples, tripleKeyOf T ≠
      make_triple_key sid (strTrim t.relation_type)
        (resolveObjId (entityIdByKey cache) t) := by
    simpa only [hobjid] using hnokey
  have h1 := upsert_singleton_insert db t cache ss ck now sid hsub hrel hs
    hnokey'
  rw [hobjid] at h1
  exact h1

/-- C8 witness: `Oliver —likes→ sushi` with `sushi` undeclared inserts a
triple row whose `object_entity_id` is null. -/
theorem unresolved_object_inserted_null_witness :
    (upsert_triples_and_links { DB.empty with nextId := 3 }
      [⟨"Oliver", some "Person", "sushi", some "food", "likes",
        some "Oliver likes sushi", none, none, none⟩]
      [("oliver|person", ⟨7, "Oliver", some "Person", [], 0, 0⟩)]
      100 200 5).triples =
      [newTriple 3 7 none "likes" (some "Oliver likes sushi")
        none none none 5] ∧
    (newTriple 3 7 none "likes" (some "Oliver likes sushi")
      none none none 5).object_entity_id = none :=
  unresolved_object_inserted_null { DB.empty with nextId := 3 }
    ⟨"Oliver", some "Person", "sushi", some "food", "likes",
      some "Oliver likes sushi", none, none, none⟩
    [("oliver|person", ⟨7, "Oliver", some "Person", [], 0, 0⟩)]
    100 200 5 7 (by decide) (by decide) (by decide) (by decide) (by decide)
    (by decide)

/-- C10: every triple row created by the upsert stores a Boolean
`is_state` — `some (given.getD false)` on insert, so `false` when the
extraction supplied null/missing — and the matched-update branch never
turns a stored Boolean back into null. -/
theorem new_triple_is_state_default_false :
    (∀ (id sid : Nat) (obj : Option Nat) (rel : String)
        (rtext : Option String) (imp : Option ℚ) (st : Option Bool)
        (conf : Option ℚ) (now : Nat),
        (newTriple id sid obj rel rtext imp st conf now).is_state =
          some (st.getD false)) ∧
    (∀ (T : Triple) (imp : Option ℚ) (st : Option Bool) (conf : Option ℚ)
        (now : Nat), T.is_state.isSome = true →
        ((updateMatchedTriple T imp st conf now).is_state).isSome = true) ∧
    (∀ (db : DB) (t : TripleData) (cache : List (String × Entity))
        (ss ck now sid : Nat), t.is_state = none →
        (strTrim t.subject) ≠ "" → (strTrim t.relation_type) ≠ "" →
        dictFind? (entityIdByKey cache)
          (make_entity_key (strTrim t.subject) t.subject_type) = some sid →
        (∀ T ∈ db.triples, tripleKeyOf T ≠
          make_triple_key sid (strTrim t.relation_type)
            (resolveObjId (entityIdByKey cache) t)) →
        (upsert_triples_and_links db [t] cache ss ck now).triples =
          db.triples ++ [newTriple db.nextId sid
            (resolveObjId (entityIdByKey cache) t) (strTrim t.relation_type)
            t.relation_text t.importance none t.confidence now] ∧
        (newTriple db.nextId sid (resolveObjId (entityIdByKey cache) t)
          (strTrim t.relation_type) t.relation_text t.importance none
          t.confidence now).is_state = some false) := by
  refine ⟨fun _ _ _ _ _ _ _ _ _ => rfl, ?_, ?_⟩
  · intro T imp st conf now hT
    rw [updateMatchedTriple_is_state]
    rcases st with _ | b
    · exact hT
    · rfl
  · intro db t cache ss ck now sid hst hsub hrel hs hnokey
    refine ⟨?_, rfl⟩
    have h1 := upsert_singleton_insert db t cache ss ck now sid hsub hrel hs
      hnokey
    rw [hst] at h1
    exact h1

/-- C3 counterexample: mention `{"Oliver", "Person"}` persisted in one
turn and mention `{"oliver", "person"}` upserted in a later turn do NOT
resolve to the same Entity record — after the second turn the store holds
two entity rows, both with canonical key `"oliver|person"`.  The second
turn's batch query filters on `canonical_name` with the store's
case-sensitive string equality and so misses the `"Oliver"` row. -/
theorem entity_cross_turn_case_not_merged :
    ((upsert_entities DB.empty [] [⟨some "Oliver", some "Person", []⟩]
        0).toOption.bind
      (fun r1 => (upsert_entities r1.1 []
          [⟨some "oliver", some "person", []⟩] 1).toOption.map
        (fun r2 => (r2.1.entities.length,
          r2.1.entities.map
            (fun e => make_entity_key e.canonical_name e.entity_type))))) =
    some (2, ["oliver|person", "oliver|person"]) := by decide

/-- C3 (amended): (1) for every batch holding two mentions with the same
canonical key whose name is not yet in the store, the resolver creates
exactly one Entity record carrying both mentions' aliases merged, and its
returned key map sends the shared key to that record; (2) for every
later-turn mention whose trimmed name equals a stored row's
`canonical_name` exactly and whose type folds to that row's canonical key
(the row being the only one with that key), the resolver resolves the
mention to the persisted record — updated in place, no new row; (3)–(4)
alias merging into an existing record is duplicate-free and drops empty
strings.  (A later-turn mention whose name differs in case instead
creates a second record — the counterexample.) -/
theorem entity_key_resolution_amended :
    (∀ (db : DB) (concurrent : List Entity) (now : Nat) (e1 e2 : EntityData),
      strTrim (e1.canonical_name.getD "") ≠ "" →
      strTrim (e2.canonical_name.getD "") ≠ "" →
      make_entity_key (strTrim (e1.canonical_name.getD ""))
          e1.entity_type =
        make_entity_key (strTrim (e2.canonical_name.getD ""))
          e2.entity_type →
      (∀ E ∈ db.entities,
        E.canonical_name ≠ strTrim (e2.canonical_name.getD "")) →
      (∀ E ∈ db.entities ++ concurrent,
        ¬(E.canonical_name = strTrim (e1.canonical_name.getD "") ∧
          E.entity_type = e1.entity_type)) →
      (∀ E ∈ db.entities, E.id ≠ db.nextId) →
      ∃ cache, upsert_entities db concurrent [e1, e2] now =
          Except.ok ({ db with
              entities := db.entities ++
                [{ id := db.nextId
                   canonical_name := strTrim (e1.canonical_name.getD "")
                   entity_type := e1.entity_type
                   aliases := if e2.aliases.isEmpty then e1.aliases
                              else unionAliases e1.aliases e2.aliases
                   first_seen_at := now
                   last_seen_at := now }]
              nextId := db.nextId + 1 }, cache) ∧
        dictFind? cache (make_entity_key
            (strTrim (e2.canonical_name.getD "")) e2.entity_type) =
          some { id := db.nextId
                 canonical_name := strTrim (e1.canonical_name.getD "")
                 entity_type := e1.entity_type
                 aliases := if e2.aliases.isEmpty then e1.aliases
                            else unionAliases e1.aliases e2.aliases
                 first_seen_at := now
                 last_seen_at := now }) ∧
    (∀ (db : DB) (concurrent : List Entity) (now : Nat) (e : EntityData)
        (E : Entity),
      E ∈ db.entities →
      strTrim (e.canonical_name.getD "") = E.canonical_name →
      E.canonical_name ≠ "" →
      make_entity_key E.canonical_name e.entity_type =
        make_entity_key E.canonical_name E.entity_type →
      (∀ E' ∈ db.entities,
        make_entity_key E'.canonical_name E'.entity_type =
          make_entity_key E.canonical_name E.entity_type → E' = E) →
      ∃ cache, upsert_entities db concurrent [e] now =
          Except.ok (db.updateEntity
            { E with
                last_seen_at := now
                aliases := if e.aliases.isEmpty then E.aliases
                           else unionAliases E.aliases e.aliases }, cache) ∧
        dictFind? cache (make_entity_key E.canonical_name E.entity_type) =
          some { E with
            last_seen_at := now
            aliases := if e.aliases.isEmpty then E.aliases
                       else unionAliases E.aliases e.aliases }) ∧
    (∀ old given : List String, (unionAliases old given).Nodup) ∧
    (∀ (old given : List String) (a : String),
      a ∈ unionAliases old given ↔ a ∈ old ∨ (a ∈ given ∧ a ≠ "")) :=
  ⟨upsert_entities_pair_same_key, upsert_entities_reuse_exact_name,
   unionAliases_nodup, unionAliases_mem⟩

/-- C3 witness: both general resolution statements applied concretely —
the same-batch pair `{"Oliver","Person"}` / `{"oliver","person"}` on the
empty store yields one record with aliases `["Ol", "Ollie"]`, and the
later-turn mention `{"Oliver","person"}` against the stored
`("Oliver","Person")` row resolves to that row, merging its aliases with
duplicates and empty strings dropped. -/
theorem entity_key_resolution_amended_witness :
    (∃ cache, upsert_entities DB.empty []
        [⟨some "Oliver", some "Person", ["Ol"]⟩,
         ⟨some "oliver", some "person", ["Ol", "Ollie", ""]⟩] 7 =
        Except.ok ({ DB.empty with
            entities := [{ id := 0
                           canonical_name := "Oliver"
                           entity_type := some "Person"
                           aliases := ["Ol", "Ollie"]
                           first_seen_at := 7
                           last_seen_at := 7 }]
            nextId := 1 }, cache) ∧
      dictFind? cache "oliver|person" =
        some { id := 0
               canonical_name := "Oliver"
               entity_type := some "Person"
               aliases := ["Ol", "Ollie"]
               first_seen_at := 7
               last_seen_at := 7 }) ∧
    (∃ cache, upsert_entities
        { DB.empty with
            entities := [⟨0, "Oliver", some "Person", ["Ol"], 2, 2⟩]
            nextId := 1 }
        [] [⟨some "Oliver", some "person", ["Ollie", "Ol", ""]⟩] 9 =
        Except.ok ({ DB.empty with
            entities := [⟨0, "Oliver", some "Person", ["Ol", "Ollie"], 2, 9⟩]
            nextId := 1 }, cache) ∧
      dictFind? cache "oliver|person" =
        some ⟨0, "Oliver", some "Person", ["Ol", "Ollie"], 2, 9⟩) := by
  constructor
  · obtain ⟨cache, h1, h2⟩ := entity_key_resolution_amended.1 DB.empty [] 7
      ⟨some "Oliver", some "Person", ["Ol"]⟩
      ⟨some "oliver", some "person", ["Ol", "Ollie", ""]⟩
      (by decide) (by decide) (by decide) (by decide) (by decide) (by decide)
    exact ⟨cache, h1, h2⟩
  · obtain ⟨cache, h1, h2⟩ := entity_key_resolution_amended.2.1
      { DB.empty with
          entities := [⟨0, "Oliver", some "Person", ["Ol"], 2, 2⟩]
          nextId := 1 }
      [] 9 ⟨some "Oliver", some "person", ["Ollie", "Ol", ""]⟩
      ⟨0, "Oliver", some "Person", ["Ol"], 2, 2⟩
      (by decide) (by decide) (by decide) (by decide) (by decide)
    exact ⟨cache, h1, h2⟩

/-- C4: the entity resolver has no local handling for a unique-constraint
conflict caused by a concurrent writer: `upsert_entities` surfaces the
conflict (first conjunct — the row `("Hazal", "person")` committed by the
other writer after this turn's batch query makes the insert's flush
signal the constraint violation, which propagates out of the resolver
instead of being retried as a read), and the orchestrator's catch-all
then rolls back the whole turn — chunk, summary and entities alike
(second conjunct: durable and pending state end unchanged). -/
theorem entity_conflict_not_recovered :
    (upsert_entities DB.empty [⟨99, "Hazal", some "person", [], 0, 0⟩]
      [⟨some "Hazal", some "person", []⟩] 5 =
      Except.error StoreErr.constraintConflict) ∧
    (update_memory_after_turn ⟨DB.empty, DB.empty⟩ exampleConv
      (Except.ok ⟨⟨some "s", [], []⟩, [⟨some "Hazal", some "person", []⟩], []⟩)
      [⟨99, "Hazal", some "person", [], 0, 0⟩] 5 = ⟨DB.empty, DB.empty⟩) := by
  constructor
  · rfl
  · rfl

/-- C1: once an evidence pair is found, any later failure — a memory-LLM
error (provider failure or malformed extraction, both surfacing as
`AppError`) or a store error during the entity upsert — rolls the whole
turn back: committed state is unchanged and the pending writes (chunk,
summary creation or widening, entities) are discarded; the failure is
absorbed inside the pipeline (the embedded function is total and returns
a transaction state, mirroring the source's catch-log-rollback handlers)
rather than raised to the caller. -/
theorem pipeline_failure_rolls_back
    (s : TxState) (conv : Conversation) (pair : Message × Message)
    (concurrent : List Entity) (now : Nat)
    (hpair : get_latest_user_assistant_pair conv = some pair) :
    (∀ e : AppError,
      update_memory_after_turn s conv (Except.error e) concurrent now =
        ⟨s.durable, s.durable⟩) ∧
    (∀ (ex : Extraction) (err : StoreErr),
      upsert_entities (summaryAndChunk s.pending conv pair now).1 concurrent
        ex.entities now = Except.error err →
      update_memory_after_turn s conv (Except.ok ex) concurrent now =
        ⟨s.durable, s.durable⟩) := by
  constructor
  · intro e
    unfold update_memory_after_turn
    simp only [hpair]
    rfl
  · intro ex err herr
    unfold update_memory_after_turn
    simp only [hpair]
    simp only [herr]
    rfl

/-- C1 witness: a malformed-extraction failure on the example conversation
leaves the initially empty store exactly empty. -/
theorem pipeline_failure_rolls_back_witness :
    update_memory_after_turn ⟨DB.empty, DB.empty⟩ exampleConv
      (Except.error (AppError.malformedExtraction "not a JSON object")) [] 9 =
      ⟨DB.empty, DB.empty⟩ :=
  (pipeline_failure_rolls_back ⟨DB.empty, DB.empty⟩ exampleConv
    (⟨"user", "bye", 3⟩, ⟨"assistant", "goodbye", 4⟩) [] 9 (by decide)).1
    (AppError.malformedExtraction "not a JSON object")

/-- C10 witness: inserting `Oliver —likes→ (no object)` with `is_state`
null stores `is_state = some false`. -/
theorem new_triple_is_state_default_false_witness :
    (upsert_triples_and_links { DB.empty with nextId := 3 }
      [⟨"Oliver", some "Person", "", none, "likes", none, none, none, none⟩]
      [("oliver|person", ⟨7, "Oliver", some "Person", [], 0, 0⟩)]
      100 200 5).triples =
      [newTriple 3 7 none "likes" none none none none 5] ∧
    (newTriple 3 7 none "likes" none none none none 5).is_state =
      some false := by
  have h := new_triple_is_state_default_false.2.2
    { DB.empty with nextId := 3 }
    ⟨"Oliver", some "Person", "", none, "likes", none, none, none, none⟩
    [("oliver|person", ⟨7, "Oliver", some "Person", [], 0, 0⟩)]
    100 200 5 7 rfl (by decide) (by decide) (by decide) (by decide)
  exact h

end ChatMemoryGraph
